/-
  Verification development for the Vetra AI gateway (src/main.py).

  The file shallowly embeds the core of the program: the bcrypt credential
  codec (hash_key / verify_key), the Fernet payload cipher
  (encrypt_data / decrypt_data), the content policy filter (check_prompt),
  the credential store (api_keys / audit_logs tables) and the /ask request
  handler, together with the create_key issuance route.  Theorems settle the
  spec claims about quota enforcement, expiry, revocation, error mapping,
  orchestration order and the audit/quota non-atomicity.
-/
import Mathlib

namespace Vetra

/-! ### Credential codec (bcrypt model)

`hash_key plain = bcrypt.hashpw(plain.encode(), bcrypt.gensalt()).decode()`
and `verify_key plain hashed = bcrypt.checkpw(plain.encode(), hashed.encode())`.
bcrypt embeds the per-call random salt in the hash and `checkpw` re-derives
the digest with that salt and compares.  The digest itself is idealized as a
collision-free one-way function of (salt, plaintext); the salt is an explicit
parameter standing for `bcrypt.gensalt()`. -/

/-- Idealized bcrypt digest: an injective function of salt and plaintext,
modelling collision resistance of the bcrypt KDF. -/
def bcryptDigest (salt : Nat) (plain : String) : Nat × String :=
  (salt, plain)

structure BcryptHash where
  salt : Nat
  digest : Nat × String
deriving DecidableEq, Repr

/-- `hash_key` from src/main.py: hash with a fresh salt, salt embedded in
the stored hash. -/
def hash_key (salt : Nat) (plain : String) : BcryptHash :=
  { salt := salt, digest := bcryptDigest salt plain }

/-- `verify_key` from src/main.py: re-derive the digest using the salt
embedded in the stored hash and compare. -/
def verify_key (plain : String) (h : BcryptHash) : Bool :=
  decide (bcryptDigest h.salt plain = h.digest)

/-! ### Audit metadata and its serialization

The handler stores `{"prompt_len": len(prompt)}`; metadata is a JSON object
with natural-number values, modelled as an association list.
`json.dumps` / `json.loads` are modelled as a canonical injective byte
encoding with a total decoder that is its left inverse. -/

abbrev Meta := List (String × Nat)

/-- Canonical byte encoding of a string: length, then character codes. -/
def encStr (s : String) : List Nat :=
  s.length :: s.data.map Char.toNat

/-- Decode a string field; returns the string and the remaining bytes. -/
def decStr : List Nat → Option (String × List Nat)
  | [] => none
  | n :: rest =>
    if (rest.take n).length = n then
      some (String.mk ((rest.take n).map Char.ofNat), rest.drop n)
    else none

def encPair : String × Nat → List Nat
  | (s, n) => encStr s ++ [n]

/-- Model of `json.dumps` on a metadata object. -/
def jsonDumps (m : Meta) : List Nat :=
  m.length :: m.flatMap encPair

def decPairs : Nat → List Nat → Option Meta
  | 0, [] => some []
  | 0, _ :: _ => none
  | k + 1, l =>
    match decStr l with
    | none => none
    | some (s, rest) =>
      match rest with
      | [] => none
      | n :: rest2 =>
        match decPairs k rest2 with
        | none => none
        | some t => some ((s, n) :: t)

/-- Model of `json.loads` on the canonical encoding. -/
def jsonLoads (l : List Nat) : Option Meta :=
  match l with
  | [] => none
  | k :: rest => decPairs k rest

/-! ### Payload cipher (Fernet model)

`encrypt_data(data) = fernet.encrypt(json.dumps(data).encode())` and
`decrypt_data(data) = json.loads(fernet.decrypt(data).decode())`.
A Fernet token is self-contained: IV/nonce, ciphertext body, and an HMAC
tag over the token contents; decryption first re-computes and checks the
tag and raises InvalidToken on mismatch.  The stream cipher is idealized as
an additive keystream and the MAC as an injective (collision-free) function
of key, nonce and body. -/

structure FernetToken where
  nonce : Nat
  body : List Nat
  tag : Nat × Nat × List Nat
deriving DecidableEq, Repr

/-- Idealized HMAC over the token: injective in (key, nonce, body). -/
def macTag (key nonce : Nat) (body : List Nat) : Nat × Nat × List Nat :=
  (key, nonce, body)

inductive DecryptError where
  | tamperedOrCorrupt
  | malformed
deriving DecidableEq, Repr

def fernetEncrypt (key nonce : Nat) (pt : List Nat) : FernetToken :=
  let body := pt.map (fun b => b + (key + nonce))
  { nonce := nonce, body := body, tag := macTag key nonce body }

def fernetDecrypt (key : Nat) (t : FernetToken) : Except DecryptError (List Nat) :=
  if t.tag = macTag key t.nonce t.body then
    .ok (t.body.map (fun b => b - (key + t.nonce)))
  else
    .error .tamperedOrCorrupt

/-- `encrypt_data` from src/main.py. -/
def encrypt_data (key nonce : Nat) (m : Meta) : FernetToken :=
  fernetEncrypt key nonce (jsonDumps m)

/-- `decrypt_data` from src/main.py. -/
def decrypt_data (key : Nat) (t : FernetToken) : Except DecryptError Meta :=
  match fernetDecrypt key t with
  | .error e => .error e
  | .ok pt =>
    match jsonLoads pt with
    | some m => .ok m
    | none => .error .malformed

/-! ### Content policy filter

```
BLOCK_PATTERNS = [r"(ignore|bypass).*(rules|system)",
                  r"(hack|crack|steal|ddos)",
                  r"(admin|root|password)"]
def check_prompt(prompt):
    if len(prompt) > 4000: raise HTTPException(400, "Prompt too long")
    for p in BLOCK_PATTERNS:
        if re.search(p, prompt.lower()):
            raise HTTPException(400, "Prompt blocked by policy")
```
The regexes are alternations of literal words, in the first pattern joined
by `.*` (which does not cross a newline).  `re.search` semantics over such a
pattern is: some word of the first group occurs, and after it some word of
the second group occurs with no newline in the gap. -/

/-- Does some word of `ws` occur at a position reachable without crossing a
newline? (semantics of a trailing `(w1|w2)` after `.*`). -/
def seekSecond (ws : List (List Char)) : List Char → Bool
  | [] => false
  | c :: t => ws.any (fun w => w.isPrefixOf (c :: t)) ||
      (decide (c ≠ '\n') && seekSecond ws t)

/-- `re.search` of `(a1|a2).*(b1|b2)`: some word of `ws1` occurs, followed
(without an intervening newline) by some word of `ws2`. -/
def seekPair (ws1 ws2 : List (List Char)) : List Char → Bool
  | [] => false
  | c :: t => ws1.any (fun w =>
        w.isPrefixOf (c :: t) && seekSecond ws2 (List.drop w.length (c :: t))) ||
      seekPair ws1 ws2 t

/-- `re.search` of an alternation of literal words: substring containment. -/
def containsWord (ws : List (List Char)) : List Char → Bool
  | [] => false
  | c :: t => ws.any (fun w => w.isPrefixOf (c :: t)) || containsWord ws t

/-- `prompt.lower()` (ASCII model of str.lower). -/
def lowerData (s : String) : List Char :=
  s.data.map Char.toLower

def PAT1A : List (List Char) := ["ignore".data, "bypass".data]
def PAT1B : List (List Char) := ["rules".data, "system".data]
def PAT2 : List (List Char) := ["hack".data, "crack".data, "steal".data, "ddos".data]
def PAT3 : List (List Char) := ["admin".data, "root".data, "password".data]

/-- `check_prompt` from src/main.py, returning the raised HTTP error (status,
detail) if any, `none` when the prompt passes. -/
def check_prompt (prompt : String) : Option (Nat × String) :=
  if 4000 < prompt.length then some (400, "Prompt too long")
  else if seekPair PAT1A PAT1B (lowerData prompt) ||
      containsWord PAT2 (lowerData prompt) ||
      containsWord PAT3 (lowerData prompt) then
    some (400, "Prompt blocked by policy")
  else none

/-! ### Data model: api_keys and audit_logs tables, gateway state

Columns of the api_keys table (src/main.py startup DDL); `uses` defaults
to 0, `max_uses` to 1000.  The SyraAI in-process memories are part of the
state because the /ask handler mutates them when it invokes the downstream
brains. -/

structure Credential where
  id : Nat
  email : String
  key_hash : BcryptHash
  uses : Nat
  max_uses : Nat
  revoked : Bool
  expires_at : Nat
  created : Nat
  bound_ip : Option String
deriving DecidableEq, Repr

structure AuditEntry where
  api_key_id : Nat
  email : String
  endpoint : String
  meta : FernetToken
  ts : Nat
deriving DecidableEq, Repr

structure DBState where
  api_keys : List Credential
  audit_logs : List AuditEntry
  next_id : Nat
deriving DecidableEq, Repr

structure GatewayState where
  db : DBState
  syraShort : List (String × List String)
  syraLong : List (String × List String)
deriving DecidableEq, Repr

def initState : GatewayState :=
  { db := { api_keys := [], audit_logs := [], next_id := 1 },
    syraShort := [], syraLong := [] }

def API_KEY_MAX_USES : Nat := 1000
def API_KEY_EXPIRE_DAYS : Nat := 30

/-- The row inserted by /create_key: uses = 0 (column default),
max_uses = 1000, revoked = false, expires_at = now + 30 days. -/
def newCredential (email : String) (salt : Nat) (plainKey : String)
    (ip : Option String) (now : Nat) (nid : Nat) : Credential :=
  { id := nid, email := email, key_hash := hash_key salt plainKey,
    uses := 0, max_uses := API_KEY_MAX_USES, revoked := false,
    expires_at := now + API_KEY_EXPIRE_DAYS * 24 * 60 * 60,
    created := now, bound_ip := ip }

/-- The /create_key route (credential issuance).  The random plaintext token
and the bcrypt salt are inputs (standing for secrets.token_urlsafe and
bcrypt.gensalt). -/
def create_key (email : String) (salt : Nat) (plainKey : String)
    (ip : Option String) (now : Nat) (st : GatewayState) : GatewayState :=
  { st with db := { st.db with
      api_keys := st.db.api_keys
        ++ [newCredential email salt plainKey ip now st.db.next_id]
      next_id := st.db.next_id + 1 } }

/-- Modelled from the spec: the row update of Revoke (sets revoked = true
on the row with the given id). -/
def revokeRow (id : Nat) (r : Credential) : Credential :=
  if r.id = id then { r with revoked := true } else r

/-- Modelled from the spec: src/main.py has no Revoke route; the spec
defines Revoke(credentialId) as idempotent, setting revoked = true.  The
revoked = false filter that excludes revoked rows from verification is in
the source (the /ask handler's SELECT). -/
def revoke (id : Nat) (st : GatewayState) : GatewayState :=
  { st with db := { st.db with api_keys := st.db.api_keys.map (revokeRow id) } }

/-! ### The /ask handler -/

/-- The loop over `SELECT * FROM api_keys WHERE revoked=false`: the first
row whose bcrypt hash matches the presented key decides the outcome
(expired / quota / success); falling off the end raises 403 Invalid. -/
def matchRow (key : String) (r : Credential) : Bool :=
  verify_key key r.key_hash

def scanKeys (key : String) (now : Nat) :
    List Credential → Except (Nat × String) Credential
  | [] => .error (403, "Invalid API key")
  | r :: rest =>
    if matchRow key r then
      if r.expires_at < now then .error (403, "API key expired")
      else if r.max_uses ≤ r.uses then .error (403, "Usage limit reached")
      else .ok r
    else scanKeys key now rest

inductive AskResult where
  | ok (vetra : String × String) (syra : String × String) (email : String)
  | httpError (status : Nat) (detail : String)
deriving DecidableEq, Repr

def AskResult.isOk : AskResult → Bool
  | .ok _ _ _ => true
  | .httpError _ _ => false

def statusOf : AskResult → Option Nat
  | .ok _ _ _ => none
  | .httpError s _ => some s

/-- VetraBrain.respond: (answer, reason). -/
def vetraRespond (prompt : String) : String × String :=
  ("Vetra AI processed: " ++ prompt.take 200, "Original Vetra logic")

/-- The response part of SyraAI.respond: (answer, reason). -/
def syraRespond (prompt : String) : String × String :=
  ("Syra AI processed: " ++ String.mk prompt.data.reverse,
   "Prompt length " ++ toString prompt.length)

/-- dict.setdefault(user, []) followed by an update of the entry. -/
def setMem (user : String) (f : List String → List String) :
    List (String × List String) → List (String × List String)
  | [] => [(user, f [])]
  | (k, v) :: t => if k = user then (k, f v) :: t else (k, v) :: setMem user f t

/-- Keep the last n elements (python lst[-10:]). -/
def lastN (n : Nat) (l : List String) : List String :=
  l.drop (l.length - n)

/-- The memory-mutation part of SyraAI.respond. -/
def syraStep (user prompt : String) (st : GatewayState) : GatewayState :=
  { st with
    syraShort := setMem user (fun v => lastN 10 (v ++ [prompt])) st.syraShort,
    syraLong := setMem user (fun v => v ++ [prompt]) st.syraLong }

/-- The uses = uses + 1 UPDATE keyed by id. -/
def bumpUses (cid : Nat) (r : Credential) : Credential :=
  if r.id = cid then { r with uses := r.uses + 1 } else r

/-- The audit row inserted by record_audit for the /ask endpoint, with
meta = encrypted {"prompt_len": len(prompt)}. -/
def auditEntryOf (fkey nonce now : Nat) (prompt : String) (c : Credential) :
    AuditEntry :=
  { api_key_id := c.id, email := c.email, endpoint := "/ask",
    meta := encrypt_data fkey nonce [("prompt_len", prompt.length)],
    ts := now }

/-- The /ask handler (src/main.py lines 215-256), including the slowapi
rate-limit middleware that runs before the handler body.  `rateOk` stands
for the rate limiter's verdict, `auditOk` for success of the audit INSERT
(an exception there propagates as a 500 after the quota UPDATE has already
been committed), `fkey`/`nonce` for the process Fernet key and the cipher's
fresh IV.  Steps in source order: rate limit, check_prompt, Authorization
header presence, credential scan over non-revoked rows, uses increment,
audit write, downstream brains. -/
def ask (fkey : Nat) (rateOk : Bool) (key : Option String) (prompt : String)
    (now : Nat) (auditOk : Bool) (nonce : Nat) (st : GatewayState) :
    AskResult × GatewayState :=
  if rateOk = false then (.httpError 429 "Rate limit exceeded", st)
  else
    match check_prompt prompt with
    | some e => (.httpError e.1 e.2, st)
    | none =>
      match key with
      | none => (.httpError 401 "Missing API key", st)
      | some k =>
        match scanKeys k now (st.db.api_keys.filter (fun r => !r.revoked)) with
        | .error e => (.httpError e.1 e.2, st)
        | .ok c =>
          let keys1 := st.db.api_keys.map (bumpUses c.id)
          if auditOk = false then
            (.httpError 500 "Internal Server Error",
             { st with db := { st.db with api_keys := keys1 } })
          else
            let entry : AuditEntry := auditEntryOf fkey nonce now prompt c
            let st1 : GatewayState :=
              { st with db := { st.db with api_keys := keys1
                                           audit_logs := st.db.audit_logs ++ [entry] } }
            (.ok (vetraRespond prompt) (syraRespond prompt) c.email,
             syraStep c.email prompt st1)

/-- One externally triggered operation on the system state. -/
inductive Op where
  | issue (email : String) (salt : Nat) (plainKey : String)
      (ip : Option String) (now : Nat)
  | gateway (fkey : Nat) (rateOk : Bool) (key : Option String)
      (prompt : String) (now : Nat) (auditOk : Bool) (nonce : Nat)
  | revokeOp (id : Nat)

def applyOp (st : GatewayState) : Op → GatewayState
  | .issue e s p ip now => create_key e s p ip now st
  | .gateway fk r k pr now a n => (ask fk r k pr now a n st).2
  | .revokeOp id => revoke id st

def runOps (ops : List Op) : GatewayState :=
  ops.foldl applyOp initState

/-! ### Helper lemmas: serialization round trip -/

lemma decStr_encStr (s : String) (rest : List Nat) :
    decStr (encStr s ++ rest) = some (s, rest) := by
  have hlen : (s.data.map Char.toNat).length = s.length := by
    rw [List.length_map]
    rfl
  have htake : (s.data.map Char.toNat ++ rest).take s.length = s.data.map Char.toNat := by
    conv_lhs => rw [← hlen]
    exact List.take_left _ _
  have hdrop : (s.data.map Char.toNat ++ rest).drop s.length = rest := by
    conv_lhs => rw [← hlen]
    exact List.drop_left _ _
  have hchars : (s.data.map Char.toNat).map Char.ofNat = s.data := by
    rw [List.map_map]
    have hco : (Char.ofNat ∘ Char.toNat) = id := by
      funext c
      simp [Char.ofNat_toNat]
    rw [hco, List.map_id]
  show decStr (s.length :: (s.data.map Char.toNat ++ rest)) = some (s, rest)
  rw [decStr, htake, hlen, if_pos rfl, hdrop, hchars]

lemma decPairs_enc (m : Meta) : decPairs m.length (m.flatMap encPair) = some m := by
  induction m with
  | nil => rfl
  | cons p t ih =>
    obtain ⟨s, n⟩ := p
    show decPairs (t.length + 1) ((encStr s ++ [n]) ++ t.flatMap encPair) = _
    rw [List.append_assoc]
    unfold decPairs
    rw [decStr_encStr]
    simp only [List.cons_append, List.nil_append, ih]

lemma jsonLoads_dumps (m : Meta) : jsonLoads (jsonDumps m) = some m :=
  decPairs_enc m

/-! ### Helper lemmas: Fernet -/

lemma fernet_roundtrip (key nonce : Nat) (pt : List Nat) :
    fernetDecrypt key (fernetEncrypt key nonce pt) = .ok pt := by
  unfold fernetDecrypt fernetEncrypt
  simp [List.map_map, Function.comp_def, Nat.add_sub_cancel]

lemma list_set_ne {l : List Nat} {i : Nat} {b : Nat} (hi : i < l.length)
    (hb : b ≠ l.get ⟨i, hi⟩) : l.set i b ≠ l := by
  intro h
  apply hb
  have h2 : (l.set i b)[i]? = some b := List.getElem?_set_self hi
  rw [h] at h2
  have h3 : l[i]? = some (l.get ⟨i, hi⟩) := by
    rw [List.getElem?_eq_getElem hi, List.get_eq_getElem]
  rw [h3] at h2
  exact (Option.some_injective _ h2).symm

/-! ### Helper lemmas: policy filter patterns -/

lemma seekSecond_of_parts (ws : List (List Char)) (gap w rest : List Char)
    (hw : w ∈ ws) (hwne : w ≠ []) (hnl : '\n' ∉ gap) :
    seekSecond ws (gap ++ (w ++ rest)) = true := by
  induction gap with
  | nil =>
    obtain ⟨c, t, rfl⟩ : ∃ c t, w = c :: t := by
      cases w with
      | nil => exact absurd rfl hwne
      | cons c t => exact ⟨c, t, rfl⟩
    simp only [List.nil_append, List.cons_append, seekSecond, Bool.or_eq_true,
      List.any_eq_true]
    exact Or.inl ⟨c :: t, hw, by
      rw [List.isPrefixOf_iff_prefix]
      exact ⟨rest, by simp⟩⟩
  | cons c g ih =>
    have hc : c ≠ '\n' := by
      intro h
      exact hnl (by rw [h]; exact List.mem_cons_self _ _)
    have hg : '\n' ∉ g := fun h => hnl (List.mem_cons_of_mem _ h)
    simp only [List.cons_append, seekSecond, Bool.or_eq_true, Bool.and_eq_true,
      decide_eq_true_eq]
    exact Or.inr ⟨hc, ih hg⟩

lemma seekPair_of_parts (ws1 ws2 : List (List Char)) (pre a gap b rest : List Char)
    (ha : a ∈ ws1) (hane : a ≠ []) (hb : b ∈ ws2) (hbne : b ≠ [])
    (hnl : '\n' ∉ gap) :
    seekPair ws1 ws2 (pre ++ (a ++ (gap ++ (b ++ rest)))) = true := by
  induction pre with
  | nil =>
    obtain ⟨c, t, rfl⟩ : ∃ c t, a = c :: t := by
      cases a with
      | nil => exact absurd rfl hane
      | cons c t => exact ⟨c, t, rfl⟩
    simp only [List.nil_append, List.cons_append, seekPair, Bool.or_eq_true,
      List.any_eq_true, Bool.and_eq_true, List.append_eq]
    refine Or.inl ⟨c :: t, ha, ?_, ?_⟩
    · rw [List.isPrefixOf_iff_prefix]
      exact ⟨gap ++ (b ++ rest), by simp⟩
    · have hdrop : List.drop (c :: t).length (c :: (t ++ (gap ++ (b ++ rest))))
          = gap ++ (b ++ rest) := by
        rw [← List.cons_append]
        exact List.drop_left _ _
      rw [hdrop]
      exact seekSecond_of_parts ws2 gap b rest hb hbne hnl
  | cons c g ih =>
    simp only [List.cons_append, seekPair, Bool.or_eq_true]
    right
    have h4 := ih
    simpa using h4

/-! ### Helper lemmas: the credential scan -/

lemma scanKeys_eq_find (key : String) (now : Nat) (rows : List Credential) :
    scanKeys key now rows =
      match rows.find? (matchRow key) with
      | none => .error (403, "Invalid API key")
      | some r =>
        if r.expires_at < now then .error (403, "API key expired")
        else if r.max_uses ≤ r.uses then .error (403, "Usage limit reached")
        else .ok r := by
  induction rows with
  | nil => rfl
  | cons r rest ih =>
    rw [scanKeys]
    by_cases h : matchRow key r
    · rw [if_pos h, List.find?_cons_of_pos _ h]
    · rw [if_neg h, List.find?_cons_of_neg _ h, ih]

lemma matchRow_bump (key : String) (cid : Nat) (r : Credential) :
    matchRow key (bumpUses cid r) = matchRow key r := by
  unfold bumpUses
  split <;> rfl

lemma revoked_bump (cid : Nat) (r : Credential) :
    (bumpUses cid r).revoked = r.revoked := by
  unfold bumpUses
  split <;> rfl

lemma filter_bump (cid : Nat) (l : List Credential) :
    (l.map (bumpUses cid)).filter (fun r => !r.revoked)
      = (l.filter (fun r => !r.revoked)).map (bumpUses cid) := by
  induction l with
  | nil => rfl
  | cons r t ih =>
    simp only [List.map_cons, List.filter_cons, revoked_bump]
    by_cases h : r.revoked
    · simp [h, ih]
    · simp [h, ih]

lemma find?_bump (key : String) (cid : Nat) (l : List Credential) :
    (l.map (bumpUses cid)).find? (matchRow key)
      = (l.find? (matchRow key)).map (bumpUses cid) := by
  induction l with
  | nil => rfl
  | cons r t ih =>
    by_cases h : matchRow key r
    · rw [List.map_cons, List.find?_cons_of_pos _ (by rw [matchRow_bump]; exact h),
        List.find?_cons_of_pos _ h]
      rfl
    · rw [List.map_cons, List.find?_cons_of_neg _ (by rw [matchRow_bump]; simpa using h),
        List.find?_cons_of_neg _ h, ih]

/-- Shorthand for the scan input: the non-revoked rows of the table. -/
def activeRows (st : GatewayState) : List Credential :=
  st.db.api_keys.filter (fun r => !r.revoked)

lemma scan_of_find_none {st : GatewayState} {key : String} {now : Nat}
    (hf : (activeRows st).find? (matchRow key) = none) :
    scanKeys key now (activeRows st) = .error (403, "Invalid API key") := by
  rw [scanKeys_eq_find, hf]

lemma scan_of_find_expired {st : GatewayState} {key : String} {now : Nat}
    {c : Credential} (hf : (activeRows st).find? (matchRow key) = some c)
    (he : c.expires_at < now) :
    scanKeys key now (activeRows st) = .error (403, "API key expired") := by
  rw [scanKeys_eq_find, hf]
  exact if_pos he

lemma scan_of_find_quota {st : GatewayState} {key : String} {now : Nat}
    {c : Credential} (hf : (activeRows st).find? (matchRow key) = some c)
    (he : ¬ c.expires_at < now) (hq : c.max_uses ≤ c.uses) :
    scanKeys key now (activeRows st) = .error (403, "Usage limit reached") := by
  rw [scanKeys_eq_find, hf]
  show (if c.expires_at < now then Except.error (403, "API key expired")
      else if c.max_uses ≤ c.uses then Except.error (403, "Usage limit reached")
      else Except.ok c : Except (Nat × String) Credential) = _
  rw [if_neg he, if_pos hq]

lemma scan_of_find_ok {st : GatewayState} {key : String} {now : Nat}
    {c : Credential} (hf : (activeRows st).find? (matchRow key) = some c)
    (he : ¬ c.expires_at < now) (hq : c.uses < c.max_uses) :
    scanKeys key now (activeRows st) = .ok c := by
  rw [scanKeys_eq_find, hf]
  show (if c.expires_at < now then Except.error (403, "API key expired")
      else if c.max_uses ≤ c.uses then Except.error (403, "Usage limit reached")
      else Except.ok c : Except (Nat × String) Credential) = _
  rw [if_neg he, if_neg (by omega)]

/-! ### Equation lemmas for the /ask handler, one per control-flow outcome -/

lemma ask_rate_limited (fkey : Nat) (key : Option String) (prompt : String)
    (now : Nat) (auditOk : Bool) (nonce : Nat) (st : GatewayState) :
    ask fkey false key prompt now auditOk nonce st
      = (.httpError 429 "Rate limit exceeded", st) := rfl

lemma ask_policy {prompt : String} {e : Nat × String}
    (he : check_prompt prompt = some e) (fkey : Nat) (key : Option String)
    (now : Nat) (auditOk : Bool) (nonce : Nat) (st : GatewayState) :
    ask fkey true key prompt now auditOk nonce st = (.httpError e.1 e.2, st) := by
  unfold ask
  simp [he]

lemma ask_missing {prompt : String} (hp : check_prompt prompt = none)
    (fkey : Nat) (now : Nat) (auditOk : Bool) (nonce : Nat) (st : GatewayState) :
    ask fkey true none prompt now auditOk nonce st
      = (.httpError 401 "Missing API key", st) := by
  unfold ask
  simp [hp]

lemma ask_scan_error {prompt : String} (hp : check_prompt prompt = none)
    {k : String} {now : Nat} {st : GatewayState} {e : Nat × String}
    (hse : scanKeys k now (activeRows st) = .error e)
    (fkey : Nat) (auditOk : Bool) (nonce : Nat) :
    ask fkey true (some k) prompt now auditOk nonce st
      = (.httpError e.1 e.2, st) := by
  unfold ask
  rw [activeRows] at hse
  simp [hp, hse]

lemma ask_audit_fail {prompt : String} (hp : check_prompt prompt = none)
    {k : String} {now : Nat} {st : GatewayState} {c : Credential}
    (hsc : scanKeys k now (activeRows st) = .ok c)
    (fkey : Nat) (nonce : Nat) :
    ask fkey true (some k) prompt now false nonce st
      = (.httpError 500 "Internal Server Error",
         { st with db := { st.db with
             api_keys := st.db.api_keys.map (bumpUses c.id) } }) := by
  unfold ask
  rw [activeRows] at hsc
  simp [hp, hsc]

lemma ask_success {prompt : String} (hp : check_prompt prompt = none)
    {k : String} {now : Nat} {st : GatewayState} {c : Credential}
    (hsc : scanKeys k now (activeRows st) = .ok c)
    (fkey : Nat) (nonce : Nat) :
    ask fkey true (some k) prompt now true nonce st
      = (.ok (vetraRespond prompt) (syraRespond prompt) c.email,
         syraStep c.email prompt
           { st with db := { st.db with
               api_keys := st.db.api_keys.map (bumpUses c.id)
               audit_logs := st.db.audit_logs
                 ++ [auditEntryOf fkey nonce now prompt c] } }) := by
  unfold ask
  rw [activeRows] at hsc
  simp [hp, hsc]

/-! ### Sequential verification calls (for the quota claims)

`askSeq ... i` is the state after `i` back-to-back /ask requests with the
same key and prompt, all rate-allowed and with working audit storage;
`askRes ... i` is the response of call number `i + 1`. -/

def askSeq (fkey : Nat) (key prompt : String) (now nonce : Nat)
    (st : GatewayState) : Nat → GatewayState
  | 0 => st
  | i + 1 =>
    (ask fkey true (some key) prompt now true nonce
      (askSeq fkey key prompt now nonce st i)).2

def askRes (fkey : Nat) (key prompt : String) (now nonce : Nat)
    (st : GatewayState) (i : Nat) : AskResult :=
  (ask fkey true (some key) prompt now true nonce
    (askSeq fkey key prompt now nonce st i)).1

lemma activeRows_syraStep (e p : String) (s : GatewayState) :
    activeRows (syraStep e p s) = activeRows s := rfl

lemma askSeq_find (fkey nonce now : Nat) (key prompt : String)
    (st : GatewayState) (c : Credential)
    (hp : check_prompt prompt = none)
    (hf : (activeRows st).find? (matchRow key) = some c)
    (he : ¬ c.expires_at < now) :
    ∀ i, (activeRows (askSeq fkey key prompt now nonce st i)).find? (matchRow key)
      = some { c with uses := c.uses + min i (c.max_uses - c.uses) } := by
  intro i
  induction i with
  | zero =>
    simp only [askSeq, Nat.zero_min, Nat.add_zero]
    exact hf
  | succ i ih =>
    by_cases hlt : c.uses + min i (c.max_uses - c.uses) < c.max_uses
    · have hsc := scan_of_find_ok ih (by simpa using he) (by simpa using hlt)
      show (activeRows (ask fkey true (some key) prompt now true nonce
        (askSeq fkey key prompt now nonce st i)).2).find? (matchRow key) = _
      rw [ask_success hp hsc fkey nonce]
      rw [activeRows_syraStep]
      show ((((askSeq fkey key prompt now nonce st i).db.api_keys.map
        (bumpUses _)).filter (fun r => !r.revoked)).find? (matchRow key)) = _
      rw [filter_bump, find?_bump]
      rw [activeRows] at ih
      rw [ih]
      show some (bumpUses c.id { c with uses := c.uses + min i (c.max_uses - c.uses) }) = _
      rw [bumpUses, if_pos rfl]
      have harith : min (i + 1) (c.max_uses - c.uses) = min i (c.max_uses - c.uses) + 1 := by
        omega
      rw [harith]
      simp [Nat.add_assoc]
    · have hq2 : c.max_uses ≤ c.uses + min i (c.max_uses - c.uses) := by omega
      have hsc := scan_of_find_quota ih (by simpa using he) (by simpa using hq2)
      show (activeRows (ask fkey true (some key) prompt now true nonce
        (askSeq fkey key prompt now nonce st i)).2).find? (matchRow key) = _
      rw [ask_scan_error hp hsc fkey true nonce]
      have harith : min (i + 1) (c.max_uses - c.uses) = min i (c.max_uses - c.uses) := by
        omega
      rw [harith]
      exact ih

/-! ### Reachability invariant: usesConsumed never exceeds usesAllowed -/

def GoodState (st : GatewayState) : Prop :=
  (∀ r ∈ st.db.api_keys, r.uses ≤ r.max_uses ∧ r.id < st.db.next_id)
  ∧ (st.db.api_keys.map (fun r => r.id)).Nodup

lemma good_init : GoodState initState := by
  constructor
  · intro r hr
    simp [initState] at hr
  · simp [initState]

lemma scanKeys_ok_inv {key : String} {now : Nat} {rows : List Credential}
    {c : Credential} (h : scanKeys key now rows = .ok c) :
    c ∈ rows ∧ c.uses < c.max_uses := by
  induction rows with
  | nil => simp [scanKeys] at h
  | cons r rest ih =>
    rw [scanKeys] at h
    by_cases hm : matchRow key r
    · rw [if_pos hm] at h
      by_cases h1 : r.expires_at < now
      · rw [if_pos h1] at h
        simp at h
      · rw [if_neg h1] at h
        by_cases h2 : r.max_uses ≤ r.uses
        · rw [if_pos h2] at h
          simp at h
        · rw [if_neg h2] at h
          have hrc : r = c := by simpa using h
          subst hrc
          exact ⟨List.mem_cons_self _ _, by omega⟩
    · rw [if_neg hm] at h
      obtain ⟨hmem, hq⟩ := ih h
      exact ⟨List.mem_cons_of_mem _ hmem, hq⟩

lemma bump_id (cid : Nat) (r : Credential) : (bumpUses cid r).id = r.id := by
  unfold bumpUses
  split <;> rfl

lemma good_map_bump {keys : List Credential} {nid : Nat}
    (h1 : ∀ r ∈ keys, r.uses ≤ r.max_uses ∧ r.id < nid)
    (h2 : (keys.map (fun r => r.id)).Nodup)
    {c : Credential} (hmem : c ∈ keys) (hq : c.uses < c.max_uses) :
    (∀ r ∈ keys.map (bumpUses c.id), r.uses ≤ r.max_uses ∧ r.id < nid)
    ∧ ((keys.map (bumpUses c.id)).map (fun r => r.id)).Nodup := by
  constructor
  · intro r hr
    obtain ⟨r0, hr0, rfl⟩ := List.mem_map.mp hr
    by_cases hid : r0.id = c.id
    · have hr0c : r0 = c := List.inj_on_of_nodup_map h2 hr0 hmem hid
      subst hr0c
      rw [bumpUses, if_pos rfl]
      refine ⟨?_, ?_⟩
      · show r0.uses + 1 ≤ r0.max_uses
        omega
      · show r0.id < nid
        exact (h1 r0 hr0).2
    · rw [bumpUses, if_neg hid]
      exact h1 r0 hr0
  · have hcomp : (keys.map (bumpUses c.id)).map (fun r => r.id)
        = keys.map (fun r => r.id) := by
      rw [List.map_map]
      have hfun : ((fun r : Credential => r.id) ∘ bumpUses c.id)
          = fun r : Credential => r.id := by
        funext r
        exact bump_id c.id r
      rw [hfun]
    rw [hcomp]
    exact h2

lemma good_ask (st : GatewayState) (h : GoodState st) (fkey : Nat)
    (rateOk : Bool) (key : Option String) (prompt : String) (now : Nat)
    (auditOk : Bool) (nonce : Nat) :
    GoodState (ask fkey rateOk key prompt now auditOk nonce st).2 := by
  cases rateOk with
  | false =>
    rw [ask_rate_limited]
    exact h
  | true =>
    cases hcp : check_prompt prompt with
    | some e =>
      rw [ask_policy hcp]
      exact h
    | none =>
      cases key with
      | none =>
        rw [ask_missing hcp]
        exact h
      | some k =>
        cases hsc : scanKeys k now (activeRows st) with
        | error e =>
          rw [ask_scan_error hcp hsc]
          exact h
        | ok c =>
          obtain ⟨hmem0, hq⟩ := scanKeys_ok_inv hsc
          have hmem : c ∈ st.db.api_keys := List.mem_of_mem_filter hmem0
          obtain ⟨hg1, hg2⟩ := good_map_bump h.1 h.2 hmem hq
          cases auditOk with
          | false =>
            rw [ask_audit_fail hcp hsc]
            exact ⟨hg1, hg2⟩
          | true =>
            rw [ask_success hcp hsc]
            exact ⟨hg1, hg2⟩

lemma revokeRow_fields (id : Nat) (r : Credential) :
    (revokeRow id r).uses = r.uses ∧ (revokeRow id r).max_uses = r.max_uses
    ∧ (revokeRow id r).id = r.id := by
  unfold revokeRow
  split <;> exact ⟨rfl, rfl, rfl⟩

lemma good_revoke (st : GatewayState) (h : GoodState st) (id : Nat) :
    GoodState (revoke id st) := by
  constructor
  · intro r hr
    obtain ⟨r0, hr0, rfl⟩ := List.mem_map.mp hr
    obtain ⟨hu, hm, hi⟩ := revokeRow_fields id r0
    rw [hu, hm, hi]
    exact h.1 r0 hr0
  · have hcomp : ((revoke id st).db.api_keys).map (fun r => r.id)
        = st.db.api_keys.map (fun r => r.id) := by
      show (st.db.api_keys.map (revokeRow id)).map (fun r => r.id) = _
      rw [List.map_map]
      have hfun : ((fun r : Credential => r.id) ∘ revokeRow id)
          = fun r : Credential => r.id := by
        funext r
        exact (revokeRow_fields id r).2.2
      rw [hfun]
    rw [hcomp]
    exact h.2

lemma good_issue (st : GatewayState) (h : GoodState st) (email : String)
    (salt : Nat) (plainKey : String) (ip : Option String) (now : Nat) :
    GoodState (create_key email salt plainKey ip now st) := by
  constructor
  · intro r hr
    have hr1 : r ∈ st.db.api_keys
        ++ [newCredential email salt plainKey ip now st.db.next_id] := hr
    rcases List.mem_append.mp hr1 with hold | hnew
    · obtain ⟨hu, hi⟩ := h.1 r hold
      refine ⟨hu, ?_⟩
      show r.id < st.db.next_id + 1
      omega
    · have hr2 : r = newCredential email salt plainKey ip now st.db.next_id := by
        simpa using hnew
      subst hr2
      refine ⟨?_, ?_⟩
      · show (0 : Nat) ≤ API_KEY_MAX_USES
        simp
      · show st.db.next_id < st.db.next_id + 1
        omega
  · show ((st.db.api_keys
      ++ [newCredential email salt plainKey ip now st.db.next_id]).map
        (fun r => r.id)).Nodup
    rw [List.map_append]
    rw [List.nodup_append]
    refine ⟨h.2, by simp, ?_⟩
    intro a ha hb
    have hlt : a < st.db.next_id := by
      obtain ⟨r0, hr0, rfl⟩ := List.mem_map.mp ha
      exact (h.1 r0 hr0).2
    have hab : a = st.db.next_id := by simpa [newCredential] using hb
    omega

lemma good_applyOp (st : GatewayState) (h : GoodState st) (op : Op) :
    GoodState (applyOp st op) := by
  cases op with
  | issue e s p ip now => exact good_issue st h e s p ip now
  | gateway fk r k pr now a n => exact good_ask st h fk r k pr now a n
  | revokeOp id => exact good_revoke st h id

lemma good_runOps (ops : List Op) : GoodState (runOps ops) := by
  suffices hs : ∀ st, GoodState st → GoodState (ops.foldl applyOp st) from
    hs initState good_init
  induction ops with
  | nil => exact fun st h => h
  | cons o t ih => exact fun st h => ih (applyOp st o) (good_applyOp st h o)

/-! ### Revocation lemmas -/

lemma revokeRow_idem (id : Nat) (r : Credential) :
    revokeRow id (revokeRow id r) = revokeRow id r := by
  unfold revokeRow
  by_cases h : r.id = id
  · simp [h]
  · simp [h]

lemma revoke_mem_revoked {st : GatewayState} {id : Nat} :
    ∀ r ∈ (revoke id st).db.api_keys, r.id = id → r.revoked = true := by
  intro r hr hid
  obtain ⟨r0, hr0, rfl⟩ := List.mem_map.mp hr
  rw [revokeRow] at hid ⊢
  by_cases h : r0.id = id
  · rw [if_pos h]
  · rw [if_neg h] at hid
    exact absurd hid h

/-! ### Concrete example states used by witnesses and counterexamples -/

def exCred : Credential :=
  { id := 1, email := "u@example.com", key_hash := hash_key 7 "vetra_k",
    uses := 0, max_uses := 2, revoked := false, expires_at := 100,
    created := 0, bound_ip := none }

def exState : GatewayState :=
  { db := { api_keys := [exCred], audit_logs := [], next_id := 2 },
    syraShort := [], syraLong := [] }

/-- An expired credential that also has no quota left (uses 5 of 2). -/
def exCredExpired : Credential :=
  { id := 1, email := "e@example.com", key_hash := hash_key 3 "vetra_e",
    uses := 5, max_uses := 2, revoked := false, expires_at := 10,
    created := 0, bound_ip := none }

def exStateExpired : GatewayState :=
  { db := { api_keys := [exCredExpired], audit_logs := [], next_id := 2 },
    syraShort := [], syraLong := [] }

/-! ### Claims -/

/-- C1: for every issued credential, sequential Verify calls with the
correct plaintext succeed exactly until usesConsumed reaches usesAllowed
(each success leaving the stored counter one higher), and every call from
that point on fails with 403 "Usage limit reached" (QuotaExceeded); the
usesAllowed = 2 scenario is the witness below. -/
theorem verify_quota_sequence (fkey nonce now : Nat) (key prompt : String)
    (st : GatewayState) (c : Credential)
    (hp : check_prompt prompt = none)
    (hf : (activeRows st).find? (matchRow key) = some c)
    (he : ¬ c.expires_at < now) (i : Nat) :
    (c.uses + i < c.max_uses →
        askRes fkey key prompt now nonce st i
          = .ok (vetraRespond prompt) (syraRespond prompt) c.email
      ∧ (activeRows (askSeq fkey key prompt now nonce st (i + 1))).find?
          (matchRow key) = some { c with uses := c.uses + i + 1 })
    ∧ (c.max_uses ≤ c.uses + i →
        askRes fkey key prompt now nonce st i
          = .httpError 403 "Usage limit reached") := by
  have hfi := askSeq_find fkey nonce now key prompt st c hp hf he i
  constructor
  · intro hlt
    have hmin : min i (c.max_uses - c.uses) = i := by omega
    rw [hmin] at hfi
    have hsc := scan_of_find_ok hfi he hlt
    constructor
    · show (ask fkey true (some key) prompt now true nonce
        (askSeq fkey key prompt now nonce st i)).1 = _
      rw [ask_success hp hsc fkey nonce]
    · have hfi2 := askSeq_find fkey nonce now key prompt st c hp hf he (i + 1)
      have hmin2 : min (i + 1) (c.max_uses - c.uses) = i + 1 := by omega
      rw [hmin2] at hfi2
      exact hfi2
  · intro hge
    have hq2 : c.max_uses ≤ c.uses + min i (c.max_uses - c.uses) := by omega
    have hsc := scan_of_find_quota hfi he hq2
    show (ask fkey true (some key) prompt now true nonce
      (askSeq fkey key prompt now nonce st i)).1 = _
    rw [ask_scan_error hp hsc fkey true nonce]

/-- C1 witness: the usesAllowed = 2 scenario on a concrete state — first
two calls succeed, the stored counter reaches 2, the third call fails with
QuotaExceeded. -/
theorem verify_quota_sequence_witness :
    askRes 0 "vetra_k" "hi" 50 0 exState 0
        = .ok (vetraRespond "hi") (syraRespond "hi") "u@example.com"
    ∧ askRes 0 "vetra_k" "hi" 50 0 exState 1
        = .ok (vetraRespond "hi") (syraRespond "hi") "u@example.com"
    ∧ (activeRows (askSeq 0 "vetra_k" "hi" 50 0 exState 2)).find?
        (matchRow "vetra_k") = some { exCred with uses := 2 }
    ∧ askRes 0 "vetra_k" "hi" 50 0 exState 2
        = .httpError 403 "Usage limit reached" := by
  have h0 := verify_quota_sequence 0 0 50 "vetra_k" "hi" exState exCred
    (by decide) (by decide) (by decide) 0
  have h1 := verify_quota_sequence 0 0 50 "vetra_k" "hi" exState exCred
    (by decide) (by decide) (by decide) 1
  have h2 := verify_quota_sequence 0 0 50 "vetra_k" "hi" exState exCred
    (by decide) (by decide) (by decide) 2
  exact ⟨(h0.1 (by decide)).1, (h1.1 (by decide)).1, (h1.1 (by decide)).2,
    h2.2 (by decide)⟩

/-- C2: a matched credential whose expiresAt lies strictly before the
current time fails verification with 403 "API key expired"
(CredentialExpired), with no hypothesis on remaining quota — the expiry
branch is decided before the quota branch — and the /ask request carrying
it returns that error unchanged. -/
theorem expired_beats_quota (st : GatewayState) (key prompt : String)
    (now fkey nonce : Nat) (auditOk : Bool) (c : Credential)
    (hp : check_prompt prompt = none)
    (hf : (activeRows st).find? (matchRow key) = some c)
    (hexp : c.expires_at < now) :
    scanKeys key now (activeRows st) = .error (403, "API key expired")
    ∧ ask fkey true (some key) prompt now auditOk nonce st
        = (.httpError 403 "API key expired", st) := by
  have hsc := scan_of_find_expired hf hexp
  exact ⟨hsc, ask_scan_error hp hsc fkey auditOk nonce⟩

/-- C2 witness: a concrete credential that is both expired and over quota
(uses 5 of 2) still fails with the expiry error, not the quota error. -/
theorem expired_beats_quota_witness :
    scanKeys "vetra_e" 50 (activeRows exStateExpired)
        = .error (403, "API key expired")
    ∧ ask 0 true (some "vetra_e") "hi" 50 true 0 exStateExpired
        = (.httpError 403 "API key expired", exStateExpired) := by
  exact expired_beats_quota exStateExpired "vetra_e" "hi" 50 0 0 true
    exCredExpired (by decide) (by decide) (by decide)

/-- C3: in every state reachable from the initial empty store by any
sequence of Issue (/create_key), gateway requests (/ask) and Revoke
operations, every stored credential satisfies usesConsumed ≤ usesAllowed. -/
theorem uses_le_max_reachable (ops : List Op) :
    ∀ r ∈ (runOps ops).db.api_keys, r.uses ≤ r.max_uses :=
  fun r hr => ((good_runOps ops).1 r hr).1

/-- C3 witness: the credential created by a concrete Issue operation is in
the store and satisfies the invariant. -/
theorem uses_le_max_reachable_witness :
    (newCredential "a" 1 "k" none 0 1)
        ∈ (runOps [Op.issue "a" 1 "k" none 0]).db.api_keys
    ∧ (newCredential "a" 1 "k" none 0 1).uses
        ≤ (newCredential "a" 1 "k" none 0 1).max_uses :=
  ⟨by decide, uses_le_max_reachable [Op.issue "a" 1 "k" none 0] _ (by decide)⟩

/-- C4: the credential codec round-trips — Compare(p, Hash(p)) is true for
every plaintext and salt, and Compare(p, Hash(q)) is false whenever p ≠ q
(the digest is idealized as collision-free). -/
theorem hash_compare_roundtrip (salt : Nat) (p q : String) :
    verify_key p (hash_key salt p) = true
    ∧ (p ≠ q → verify_key p (hash_key salt q) = false) := by
  constructor
  · simp [verify_key, hash_key]
  · intro hpq
    simp only [verify_key, hash_key, bcryptDigest, decide_eq_false_iff_not]
    intro hcon
    exact hpq (congrArg Prod.snd hcon)

/-- C4 witness at concrete plaintexts. -/
theorem hash_compare_roundtrip_witness :
    verify_key "vetra_a" (hash_key 0 "vetra_a") = true
    ∧ ("vetra_a" : String) ≠ "vetra_b"
    ∧ verify_key "vetra_a" (hash_key 0 "vetra_b") = false :=
  ⟨(hash_compare_roundtrip 0 "vetra_a" "vetra_b").1, by decide,
   (hash_compare_roundtrip 0 "vetra_a" "vetra_b").2 (by decide)⟩

/-- C5: the payload cipher round-trips — Decrypt(Encrypt(m)) = m for every
metadata object m — and modifying any byte of the token (its nonce, any
body byte, or its authentication tag) makes Decrypt fail with
TamperedOrCorrupt. -/
theorem encrypt_decrypt_roundtrip_tamper (key nonce : Nat) (m : Meta) :
    decrypt_data key (encrypt_data key nonce m) = .ok m
    ∧ (∀ n2, n2 ≠ nonce →
        decrypt_data key { encrypt_data key nonce m with nonce := n2 }
          = .error .tamperedOrCorrupt)
    ∧ (∀ i b, ∀ hi : i < (encrypt_data key nonce m).body.length,
        b ≠ (encrypt_data key nonce m).body.get ⟨i, hi⟩ →
        decrypt_data key { encrypt_data key nonce m with
            body := (encrypt_data key nonce m).body.set i b }
          = .error .tamperedOrCorrupt)
    ∧ (∀ t2, t2 ≠ (encrypt_data key nonce m).tag →
        decrypt_data key { encrypt_data key nonce m with tag := t2 }
          = .error .tamperedOrCorrupt) := by
  refine ⟨?_, ?_, ?_, ?_⟩
  · show decrypt_data key (fernetEncrypt key nonce (jsonDumps m)) = .ok m
    simp only [decrypt_data, fernet_roundtrip, jsonLoads_dumps]
  · intro n2 hn
    simp only [decrypt_data, fernetDecrypt, encrypt_data, fernetEncrypt, macTag]
    rw [if_neg]
    intro hcon
    exact hn (congrArg (fun t => t.2.1) hcon).symm
  · intro i b hi hb
    simp only [decrypt_data, fernetDecrypt, encrypt_data, fernetEncrypt, macTag]
    rw [if_neg]
    intro hcon
    have hbody := congrArg (fun t => t.2.2) hcon
    exact list_set_ne hi hb hbody.symm
  · intro t2 ht
    simp only [decrypt_data, fernetDecrypt, encrypt_data, fernetEncrypt, macTag]
    rw [if_neg]
    intro hcon
    exact ht hcon

/-- C5 witness at a concrete metadata object, with each kind of single-byte
modification of the token. -/
theorem encrypt_decrypt_roundtrip_tamper_witness :
    decrypt_data 5 (encrypt_data 5 9 [("prompt_len", 42)])
        = .ok [("prompt_len", 42)]
    ∧ decrypt_data 5 { encrypt_data 5 9 [("prompt_len", 42)] with nonce := 8 }
        = .error .tamperedOrCorrupt
    ∧ decrypt_data 5 { encrypt_data 5 9 [("prompt_len", 42)] with
        body := (encrypt_data 5 9 [("prompt_len", 42)]).body.set 0 0 }
        = .error .tamperedOrCorrupt
    ∧ decrypt_data 5 { encrypt_data 5 9 [("prompt_len", 42)] with
        tag := (0, 0, []) }
        = .error .tamperedOrCorrupt := by
  have h := encrypt_decrypt_roundtrip_tamper 5 9 [("prompt_len", 42)]
  exact ⟨h.1, h.2.1 8 (by decide), h.2.2.1 0 0 (by decide) (by decide),
    h.2.2.2 (0, 0, []) (by decide)⟩

/-- C6: the content policy filter rejects every text longer than 4000
characters with the "too long" reason, never gives that reason to a text
of length at most 4000, rejects any text whose lowercasing contains
"ignore the rules", and accepts "what is the weather". -/
theorem check_prompt_spec :
    (∀ s : String, 4000 < s.length →
        check_prompt s = some (400, "Prompt too long"))
    ∧ (∀ s : String, s.length ≤ 4000 →
        check_prompt s ≠ some (400, "Prompt too long"))
    ∧ (∀ s : String, ∀ pre post : List Char,
        lowerData s = pre ++ ("ignore the rules".data ++ post) →
        (check_prompt s).isSome = true)
    ∧ check_prompt "what is the weather" = none := by
  refine ⟨?_, ?_, ?_, by decide⟩
  · intro s h
    unfold check_prompt
    rw [if_pos h]
  · intro s h
    unfold check_prompt
    rw [if_neg (by omega)]
    split
    · simp
    · simp
  · intro s pre post h
    have hmatch : seekPair PAT1A PAT1B (lowerData s) = true := by
      rw [h]
      have h2 : pre ++ ("ignore the rules".data ++ post)
          = pre ++ ("ignore".data ++ (" the ".data ++ ("rules".data ++ post))) := by
        have h3 : ("ignore the rules".data : List Char)
            = ("ignore".data ++ (" the ".data ++ "rules".data)) := by decide
        rw [h3]
        simp [List.append_assoc]
      rw [h2]
      exact seekPair_of_parts PAT1A PAT1B pre "ignore".data " the ".data
        "rules".data post (by decide) (by decide) (by decide) (by decide)
        (by decide)
    unfold check_prompt
    by_cases hl : 4000 < s.length
    · rw [if_pos hl]
      rfl
    · rw [if_neg hl]
      rw [hmatch]
      simp

/-- C6 witness: a 4001-character text is rejected as too long, a
4000-character text is not rejected for length, a text containing
"Ignore the rules" is rejected, and the ordinary question passes. -/
theorem check_prompt_spec_witness :
    check_prompt (String.mk (List.replicate 4001 'z'))
        = some (400, "Prompt too long")
    ∧ check_prompt "hello" ≠ some (400, "Prompt too long")
    ∧ (check_prompt "so: Ignore the rules now").isSome = true
    ∧ check_prompt "what is the weather" = none := by
  have h := check_prompt_spec
  refine ⟨?_, ?_, ?_, h.2.2.2⟩
  · apply h.1
    show 4000 < (List.replicate 4001 'z').length
    rw [List.length_replicate]
    omega
  · apply h.2.1
    decide
  · apply h.2.2.1 "so: Ignore the rules now" ("so: ".data) (" now".data)
    decide

/-- A credential with quota exhausted (uses 2 of 2) but not expired. -/
def exCredQuota : Credential :=
  { id := 1, email := "q@example.com", key_hash := hash_key 4 "vetra_q",
    uses := 2, max_uses := 2, revoked := false, expires_at := 100,
    created := 0, bound_ip := none }

def exStateQuota : GatewayState :=
  { db := { api_keys := [exCredQuota], audit_logs := [], next_id := 2 },
    syraShort := [], syraLong := [] }

/-- C7 counterexample: a present but non-matching credential is answered
with status 403 ("Invalid API key"), not the claimed 401. -/
theorem invalid_key_status_counterexample :
    ask 0 true (some "vetra_wrong") "hi" 50 true 0 exState
        = (.httpError 403 "Invalid API key", exState)
    ∧ statusOf (ask 0 true (some "vetra_wrong") "hi" 50 true 0 exState).1
        = some 403 := by
  exact ⟨by decide, by decide⟩

/-- C7 (amended): on the request path a missing credential yields 401, a
present but non-matching credential yields 403 "Invalid API key", an
expired credential 403 "API key expired", an exhausted credential 403
"Usage limit reached" (a revoked credential is excluded from the scan and
therefore also answered with the 403 invalid response), a policy violation
yields 400; the six caller-visible (status, message) pairs are fixed
constant strings, pairwise distinct, with no internal details. -/
theorem error_status_map (fkey nonce now : Nat) (prompt : String)
    (auditOk : Bool) (st : GatewayState) :
    (check_prompt prompt = none →
        ask fkey true none prompt now auditOk nonce st
          = (.httpError 401 "Missing API key", st))
    ∧ (∀ key, check_prompt prompt = none →
        (activeRows st).find? (matchRow key) = none →
        ask fkey true (some key) prompt now auditOk nonce st
          = (.httpError 403 "Invalid API key", st))
    ∧ (∀ key c, check_prompt prompt = none →
        (activeRows st).find? (matchRow key) = some c →
        c.expires_at < now →
        ask fkey true (some key) prompt now auditOk nonce st
          = (.httpError 403 "API key expired", st))
    ∧ (∀ key c, check_prompt prompt = none →
        (activeRows st).find? (matchRow key) = some c →
        ¬ c.expires_at < now → c.max_uses ≤ c.uses →
        ask fkey true (some key) prompt now auditOk nonce st
          = (.httpError 403 "Usage limit reached", st))
    ∧ (∀ key, 4000 < prompt.length →
        ask fkey true key prompt now auditOk nonce st
          = (.httpError 400 "Prompt too long", st))
    ∧ (∀ key, check_prompt prompt = some (400, "Prompt blocked by policy") →
        ask fkey true key prompt now auditOk nonce st
          = (.httpError 400 "Prompt blocked by policy", st))
    ∧ List.Pairwise (fun a b => a ≠ b)
        [((401 : Nat), "Missing API key"), (403, "Invalid API key"),
         (403, "API key expired"), (403, "Usage limit reached"),
         (400, "Prompt too long"), (400, "Prompt blocked by policy")] := by
  refine ⟨?_, ?_, ?_, ?_, ?_, ?_, by decide⟩
  · intro hp
    exact ask_missing hp fkey now auditOk nonce st
  · intro key hp hf
    exact ask_scan_error hp (scan_of_find_none hf) fkey auditOk nonce
  · intro key c hp hf hexp
    exact ask_scan_error hp (scan_of_find_expired hf hexp) fkey auditOk nonce
  · intro key c hp hf he hq
    exact ask_scan_error hp (scan_of_find_quota hf he hq) fkey auditOk nonce
  · intro key hl
    have hp : check_prompt prompt = some (400, "Prompt too long") := by
      unfold check_prompt
      rw [if_pos hl]
    exact ask_policy hp fkey key now auditOk nonce st
  · intro key hp
    exact ask_policy hp fkey key now auditOk nonce st

/-- C7 witness: one concrete request per error kind, each answered with
its amended status and message. -/
theorem error_status_map_witness :
    ask 0 true none "hi" 50 true 0 exState
        = (.httpError 401 "Missing API key", exState)
    ∧ ask 0 true (some "nope") "hi" 50 true 0 exState
        = (.httpError 403 "Invalid API key", exState)
    ∧ ask 0 true (some "vetra_e") "hi" 50 true 0 exStateExpired
        = (.httpError 403 "API key expired", exStateExpired)
    ∧ ask 0 true (some "vetra_q") "hi" 50 true 0 exStateQuota
        = (.httpError 403 "Usage limit reached", exStateQuota)
    ∧ ask 0 true (some "x") (String.mk (List.replicate 4001 'z')) 50 true 0 exState
        = (.httpError 400 "Prompt too long", exState)
    ∧ ask 0 true (some "x") "hack" 50 true 0 exState
        = (.httpError 400 "Prompt blocked by policy", exState) := by
  have h1 := error_status_map 0 0 50 "hi" true exState
  have h2 := error_status_map 0 0 50 "hi" true exStateExpired
  have h3 := error_status_map 0 0 50 "hi" true exStateQuota
  have h4 := error_status_map 0 0 50 (String.mk (List.replicate 4001 'z'))
    true exState
  have h5 := error_status_map 0 0 50 "hack" true exState
  refine ⟨h1.1 (by decide), h1.2.1 "nope" (by decide) (by decide),
    h2.2.2.1 "vetra_e" exCredExpired (by decide) (by decide) (by decide),
    h3.2.2.2.1 "vetra_q" exCredQuota (by decide) (by decide) (by decide)
      (by decide), ?_, h5.2.2.2.2.2.1 (some "x") (by decide)⟩
  apply h4.2.2.2.2.1 (some "x")
  show 4000 < (List.replicate 4001 'z').length
  rw [List.length_replicate]
  omega

/-- C8 counterexample: a request that both carries a non-matching
credential and a policy-violating prompt is answered with the policy
error, not the credential error — check_prompt runs before the
Authorization header is read. -/
theorem policy_before_credential_counterexample :
    ask 0 true (some "vetra_wrong") "hack" 50 true 0 exState
        = (.httpError 400 "Prompt blocked by policy", exState) := by
  decide

/-- C8 (amended): the /ask pipeline runs rate limit, then the content
policy filter, then credential verification and quota, then the quota
increment and audit write, and only then the downstream brains.  A
rate-limited request is answered 429 with no state change; a
policy-violating prompt is answered 400 regardless of the credential; a
failed scan is answered with its error and no state change; when the scan
succeeds but the audit write fails, the counter is incremented yet no
audit entry is appended and the downstream memory is untouched; on full
success the audit entry is appended and the downstream memory updated. -/
theorem gateway_order (fkey nonce now : Nat) (key : Option String)
    (prompt : String) (auditOk : Bool) (st : GatewayState) :
    (ask fkey false key prompt now auditOk nonce st
        = (.httpError 429 "Rate limit exceeded", st))
    ∧ (∀ e, check_prompt prompt = some e →
        ask fkey true key prompt now auditOk nonce st
          = (.httpError e.1 e.2, st))
    ∧ (∀ k e, check_prompt prompt = none →
        scanKeys k now (activeRows st) = .error e →
        ask fkey true (some k) prompt now auditOk nonce st
          = (.httpError e.1 e.2, st))
    ∧ (∀ k c, check_prompt prompt = none →
        scanKeys k now (activeRows st) = .ok c →
        ask fkey true (some k) prompt now false nonce st
          = (.httpError 500 "Internal Server Error",
             { st with db := { st.db with
                 api_keys := st.db.api_keys.map (bumpUses c.id) } }))
    ∧ (∀ k c, check_prompt prompt = none →
        scanKeys k now (activeRows st) = .ok c →
        ask fkey true (some k) prompt now true nonce st
          = (.ok (vetraRespond prompt) (syraRespond prompt) c.email,
             syraStep c.email prompt
               { st with db := { st.db with
                   api_keys := st.db.api_keys.map (bumpUses c.id)
                   audit_logs := st.db.audit_logs
                     ++ [auditEntryOf fkey nonce now prompt c] } })) := by
  refine ⟨ask_rate_limited fkey key prompt now auditOk nonce st, ?_, ?_, ?_, ?_⟩
  · intro e he
    exact ask_policy he fkey key now auditOk nonce st
  · intro k e hp hse
    exact ask_scan_error hp hse fkey auditOk nonce
  · intro k c hp hsc
    exact ask_audit_fail hp hsc fkey nonce
  · intro k c hp hsc
    exact ask_success hp hsc fkey nonce

/-- C8 witness: concrete requests exercising each stage boundary, in
particular a missing-credential request with a policy-violating prompt
answered by the policy error. -/
theorem gateway_order_witness :
    ask 0 false (some "vetra_k") "hi" 50 true 0 exState
        = (.httpError 429 "Rate limit exceeded", exState)
    ∧ ask 0 true none "hack" 50 true 0 exState
        = (.httpError 400 "Prompt blocked by policy", exState)
    ∧ ask 0 true (some "nope") "hi" 50 true 0 exState
        = (.httpError 403 "Invalid API key", exState)
    ∧ (ask 0 true (some "vetra_k") "hi" 50 false 0 exState).1
        = .httpError 500 "Internal Server Error"
    ∧ (ask 0 true (some "vetra_k") "hi" 50 true 0 exState).1
        = .ok (vetraRespond "hi") (syraRespond "hi") "u@example.com" := by
  have h := gateway_order 0 0 50 (some "vetra_k") "hi" true exState
  exact ⟨h.1,
    (gateway_order 0 0 50 none "hack" true exState).2.1
      (400, "Prompt blocked by policy") (by decide),
    h.2.2.1 "nope" (403, "Invalid API key") (by decide) (by rfl),
    congrArg Prod.fst (h.2.2.2.1 "vetra_k" exCred (by decide) (by rfl)),
    congrArg Prod.fst (h.2.2.2.2 "vetra_k" exCred (by decide) (by rfl))⟩

/-- Modelled from the spec: Revoke applied twice is the same as applied
once (setting revoked = true is idempotent row-wise). -/
lemma revoke_idem (st : GatewayState) (id : Nat) :
    revoke id (revoke id st) = revoke id st := by
  unfold revoke
  have hmm : (st.db.api_keys.map (revokeRow id)).map (revokeRow id)
      = st.db.api_keys.map (revokeRow id) := by
    rw [List.map_map]
    have hfun : revokeRow id ∘ revokeRow id = revokeRow id :=
      funext fun r => revokeRow_idem id r
    rw [hfun]
  show ({ st with db := { st.db with
      api_keys := (st.db.api_keys.map (revokeRow id)).map (revokeRow id) } }
      : GatewayState) = _
  rw [hmm]

/-- C9: Revoke is idempotent — revoking the same credentialId twice gives
the same state as revoking it once, with no error — and once every
credential matching a key is revoked, /ask with that key never again
succeeds: the revoked rows are excluded from the verification scan. -/
theorem revoke_idempotent_blocks (st : GatewayState) (id : Nat) :
    revoke id (revoke id st) = revoke id st
    ∧ ∀ (fkey nonce now : Nat) (rateOk auditOk : Bool) (key prompt : String),
        (∀ r ∈ (revoke id st).db.api_keys, matchRow key r = true → r.id = id) →
        ((ask fkey rateOk (some key) prompt now auditOk nonce
          (revoke id st)).1).isOk = false := by
  refine ⟨revoke_idem st id, ?_⟩
  intro fkey nonce now rateOk auditOk key prompt hyp
  cases rateOk with
  | false =>
    rw [ask_rate_limited]
    rfl
  | true =>
    cases hcp : check_prompt prompt with
    | some e =>
      rw [ask_policy hcp]
      rfl
    | none =>
      have hfind : (activeRows (revoke id st)).find? (matchRow key) = none := by
        cases hf : (activeRows (revoke id st)).find? (matchRow key) with
        | none => rfl
        | some c =>
          have hc1 := List.mem_of_find?_eq_some hf
          have hc2 := List.find?_some hf
          have hc3 : c ∈ (revoke id st).db.api_keys :=
            List.mem_of_mem_filter hc1
          have hc4 : c.id = id := hyp c hc3 hc2
          have hc5 : c.revoked = true := revoke_mem_revoked c hc3 hc4
          have hc6 : (!c.revoked) = true := (List.mem_filter.mp hc1).2
          rw [hc5] at hc6
          simp at hc6
      rw [ask_scan_error hcp (scan_of_find_none hfind)]
      rfl

/-- C9 witness: revoking the only credential twice equals revoking once,
and its key no longer verifies afterwards. -/
theorem revoke_idempotent_blocks_witness :
    revoke 1 (revoke 1 exState) = revoke 1 exState
    ∧ ((ask 0 true (some "vetra_k") "hi" 50 true 0
        (revoke 1 exState)).1).isOk = false :=
  ⟨(revoke_idempotent_blocks exState 1).1,
   (revoke_idempotent_blocks exState 1).2 0 0 50 true true "vetra_k" "hi"
     (by decide)⟩

/-- C10: verification success and the audit write are not atomic — when
the scan succeeds but the audit INSERT fails, the caller receives a 500
error while the quota UPDATE has already been committed (usesConsumed is
left incremented) and no audit entry exists; the downstream brains are
never invoked. -/
theorem audit_failure_nonatomic (fkey nonce now : Nat) (key prompt : String)
    (st : GatewayState) (c : Credential)
    (hp : check_prompt prompt = none)
    (hf : (activeRows st).find? (matchRow key) = some c)
    (he : ¬ c.expires_at < now) (hq : c.uses < c.max_uses) :
    (ask fkey true (some key) prompt now false nonce st).1
        = .httpError 500 "Internal Server Error"
    ∧ (ask fkey true (some key) prompt now false nonce st).2.db.api_keys
        = st.db.api_keys.map (bumpUses c.id)
    ∧ (ask fkey true (some key) prompt now false nonce st).2.db.audit_logs
        = st.db.audit_logs
    ∧ (ask fkey true (some key) prompt now false nonce st).2.syraShort
        = st.syraShort
    ∧ (ask fkey true (some key) prompt now false nonce st).2.syraLong
        = st.syraLong := by
  have hsc := scan_of_find_ok hf he hq
  have h := ask_audit_fail hp hsc fkey nonce
  exact ⟨by rw [h], by rw [h], by rw [h], by rw [h], by rw [h]⟩

/-- C10 witness: the concrete request whose audit write fails ends in a
500 while the stored counter is already incremented and the audit log is
still empty. -/
theorem audit_failure_nonatomic_witness :
    (ask 0 true (some "vetra_k") "hi" 50 false 0 exState).1
        = .httpError 500 "Internal Server Error"
    ∧ (ask 0 true (some "vetra_k") "hi" 50 false 0 exState).2.db.api_keys
        = exState.db.api_keys.map (bumpUses 1)
    ∧ (ask 0 true (some "vetra_k") "hi" 50 false 0 exState).2.db.audit_logs
        = exState.db.audit_logs := by
  have h := audit_failure_nonatomic 0 0 50 "vetra_k" "hi" exState exCred
    (by decide) (by decide) (by decide) (by decide)
  exact ⟨h.1, h.2.1, h.2.2.1⟩

end Vetra
